import Mathlib

/-!
# simple-dummy: the lifecycle of `simple_dummy::DummyApp`

A shallow embedding of `src/projects/simple-dummy/src/dummy_app.cpp` and
`src/projects/simple-dummy/src/main.cpp`.

* The members `running_` and `worker_thread_` of the object, the worker threads
  started so far, the lines written to `std::cout` and the number of clock reads
  form one explicit `State`.
* The wall clock is a parameter `clock : Nat → Tm`: the `k`-th call of
  `std::chrono::system_clock::now()` followed by `std::localtime` yields `clock k`.
* `running_` is shared between threads.  A loop that polls it takes a parameter
  `env : Env`; `env k b` is the value of the flag when the loop evaluates its
  condition for the `k`-th time, given the value `b` it had before (what the other
  threads did to the flag in the meantime).  `quiet` is the absence of interference.
* Loops that may not terminate (`join`, the polling loop of `run_daemon`, the
  worker loop) take fuel; running out of fuel is reported, never hidden.
* A member function is a function on `State`; what it appends to `cout` are the lines
  that call writes (with `stop()`, also those of the worker it joins).  A statement
  that streams to `std::cout` up to `std::endl` counts as one write, the sink being
  taken to serialize writes as the spec assumes.
* Several threads using one object are a trace of `Event`s: calls of `run_daemon`,
  complete calls of `run_foreground` and `stop`, and single steps of worker threads.
* `std::thread` is library code: starting one adds a thread, move-assigning to a
  joinable handle and destroying a joinable handle call `std::terminate`.
* `int counter` is an integer kept within 32 bits: `++counter` wraps from `2^31 - 1`
  to `-2^31` (`pre_increment`), which is what the overflow, undefined in C++, does on
  two's-complement targets.  `int i` of the foreground loop stays below 5 and is a
  natural number.
-/

namespace simple_dummy

/-- Broken-down local time, the fields of `struct tm` that the format string of
`log_message` reads: `tm_year` counts years since 1900 (it is negative before 1900) and
`tm_mon` months since January, as in C; the other fields are never negative. -/
structure Tm where
  tm_year : Int
  tm_mon : Nat
  tm_mday : Nat
  tm_hour : Nat
  tm_min : Nat
  tm_sec : Nat
deriving DecidableEq, Repr

/-- Program counter of a thread running `DummyApp::worker_loop`: about to evaluate
the loop condition `running_`, inside the loop body (condition read as true, line
not yet written), or returned. -/
inductive Pc where
  | check
  | body
  | done
deriving DecidableEq, Repr

/-- Thread-local state of one execution of `DummyApp::worker_loop`: where it is
and its local `int counter`. -/
structure Worker where
  pc : Pc
  counter : Int
deriving DecidableEq, Repr

/-- Model of `++counter` on `int counter` (32 bits): one more, and from `2147483647` the
wraparound to `-2147483648`. -/
def pre_increment (c : Int) : Int :=
  (c + 1 + 2147483648) % 4294967296 - 2147483648

/-- A thread entering `DummyApp::worker_loop`, after `int counter = 0`. -/
def Worker.start : Worker :=
  { pc := .check, counter := 0 }

/-- The object and the process around it.  `worker_thread_ = some tid` is a
joinable `std::thread` owning thread number `tid` of `threads`; `none` is a
non-joinable handle.  `cout` holds one entry per statement that ends in
`std::endl` (the characters it wrote, line end included). -/
structure State where
  running_ : Bool
  worker_thread_ : Option Nat
  threads : List Worker
  cout : List String
  clock_reads : Nat
deriving DecidableEq, Repr

/-- Outcome of a call: it returned, or `std::terminate` ended the process, or it
is still blocked after the given fuel. Each carries the state reached. -/
inductive Result where
  | ok (s : State)
  | terminated (s : State)
  | blocked (s : State)
deriving DecidableEq, Repr

/-- The state an outcome carries. -/
def Result.state : Result → State
  | .ok s => s
  | .terminated s => s
  | .blocked s => s

/-- Interference on the shared flag: `env k b` is the flag at the `k`-th
evaluation of a loop condition when it was `b` before. -/
abbrev Env := Nat → Bool → Bool

/-- No other thread writes the flag. -/
def quiet : Env := fun _ b => b

/-- The value the `k`-th evaluation of a loop condition reads, when the flag was
`b` on entry to the loop. -/
def observed (env : Env) (b : Bool) : Nat → Bool
  | 0 => env 0 b
  | k + 1 => env (k + 1) (observed env b k)

/-- Conversions `%m %d %H %M %S` of `std::put_time`: a decimal number written with
two digits, a leading zero when it is below ten. -/
def two_digits (n : Nat) : String :=
  if n < 10 then "0" ++ toString n else toString n

/-- Model of `std::put_time(tm, "%Y-%m-%d %H:%M:%S")`; `%Y` is the year `tm_year + 1900` as
a decimal number and `%m` the month `tm_mon + 1`. -/
def put_time (t : Tm) : String :=
  toString (t.tm_year + 1900) ++ "-" ++ two_digits (t.tm_mon + 1) ++ "-" ++
    two_digits t.tm_mday ++ " " ++ two_digits t.tm_hour ++ ":" ++
    two_digits t.tm_min ++ ":" ++ two_digits t.tm_sec

/-- The characters one call of `log_message` streams to `std::cout`:
`"[" << put_time << "] " << message << std::endl`. -/
def log_line (t : Tm) (message : String) : String :=
  "[" ++ put_time t ++ "] " ++ message ++ "\n"

namespace DummyApp

/-- Model of `DummyApp::log_message`: read the clock once, write one line. -/
def log_message (clock : Nat → Tm) (message : String) (s : State) : State :=
  { s with
    cout := s.cout ++ [log_line (clock s.clock_reads) message]
    clock_reads := s.clock_reads + 1 }

/-- One step of a thread in `DummyApp::worker_loop`.  At the loop condition it reads
`running_`; in the body it increments `counter`, logs the line that carries the new
value and sleeps. -/
def worker_step (clock : Nat → Tm) (s : State) (w : Worker) : State × Worker :=
  match w.pc with
  | .check => if s.running_ then (s, { w with pc := .body }) else (s, { w with pc := .done })
  | .body =>
    (log_message clock ("Daemon worker iteration " ++ toString (pre_increment w.counter)) s,
      { pc := .check, counter := pre_increment w.counter })
  | .done => (s, w)

/-- A worker thread run on from `w` until it returns; `k` counts the evaluations of
the loop condition made so far.  `none`: not returned within the fuel. -/
def worker_run (clock : Nat → Tm) (env : Env) : Nat → Nat → State → Worker → Option (State × Worker)
  | 0, _, s, w => if w.pc = .done then some (s, w) else none
  | fuel + 1, k, s, w =>
    match w.pc with
    | .done => some (s, w)
    | .check =>
      let r := worker_step clock { s with running_ := env k s.running_ } w
      worker_run clock env fuel (k + 1) r.1 r.2
    | .body =>
      let r := worker_step clock s w
      worker_run clock env fuel k r.1 r.2

/-- Model of `DummyApp::worker_loop`, from its first statement `int counter = 0`. -/
def worker_loop (clock : Nat → Tm) (env : Env) (fuel : Nat) (s : State) : Option (State × Worker) :=
  worker_run clock env fuel 0 s Worker.start

/-- Model of `std::thread::join` on thread `tid`: wait until that thread has returned,
nobody else touching the flag meanwhile. -/
def join (clock : Nat → Tm) (fuel : Nat) (s : State) (tid : Nat) : Option State :=
  match s.threads[tid]? with
  | none => some s
  | some w =>
    match worker_run clock quiet fuel 0 s w with
    | some r => some { r.1 with threads := r.1.threads.set tid r.2 }
    | none => none

/-- Modelled from the spec: the class declaration `simple_dummy/dummy_app.hpp` is not
among the sources, so the initial members follow the data model of the spec, created
with `running=false` and no worker handle.  The body of the constructor writes one
line to `std::cout`. -/
def ctor (cout : List String) : State :=
  { running_ := false
    worker_thread_ := none
    threads := []
    cout := cout ++ ["DummyApp initialized\n"]
    clock_reads := 0 }

/-- Lines 34 to 37 of `DummyApp::run_daemon`: set the flag, start a thread in
`worker_loop`, move-assign it to `worker_thread_`, log.  The new thread exists before
the assignment, and assigning to a joinable `std::thread` calls `std::terminate`. -/
def run_daemon_start (clock : Nat → Tm) (s : State) : Result :=
  let s1 := { s with running_ := true }
  let tid := s1.threads.length
  let s2 := { s1 with threads := s1.threads ++ [Worker.start] }
  match s2.worker_thread_ with
  | some _ => .terminated s2
  | none => .ok (log_message clock "DummyApp daemon started" { s2 with worker_thread_ := some tid })

/-- The loop `while (running_) sleep_for(1s)` of `run_daemon`; `k` counts the
evaluations of the condition made so far. -/
def keep_alive (env : Env) : Nat → Nat → State → Result
  | 0, _, s => .blocked s
  | fuel + 1, k, s =>
    let s1 := { s with running_ := env k s.running_ }
    if s1.running_ then keep_alive env fuel (k + 1) s1 else .ok s1

/-- Model of `DummyApp::run_daemon`. -/
def run_daemon (clock : Nat → Tm) (env : Env) (fuel : Nat) (s : State) : Result :=
  match run_daemon_start clock s with
  | .ok s1 => keep_alive env fuel 0 s1
  | r => r

/-- The loop `for (int i = 0; i < 5 && running_; ++i)` of `run_foreground`, entered with
`i` and `bound = 5 - i` iterations to go; `running_` is read only when `i < 5`. -/
def foreground_loop (clock : Nat → Tm) (env : Env) : Nat → Nat → State → State
  | 0, _, s => s
  | bound + 1, i, s =>
    let s1 := { s with running_ := env i s.running_ }
    if s1.running_ then
      foreground_loop clock env bound (i + 1)
        (log_message clock ("Foreground iteration " ++ toString (i + 1)) s1)
    else s1

/-- Model of `DummyApp::run_foreground`. -/
def run_foreground (clock : Nat → Tm) (env : Env) (s : State) : State :=
  let s1 := { s with running_ := true }
  let s2 := log_message clock "DummyApp running in foreground" s1
  let s3 := foreground_loop clock env 5 0 s2
  let s4 := { s3 with running_ := false }
  log_message clock "DummyApp foreground mode completed" s4

/-- Model of `DummyApp::stop`. -/
def stop (clock : Nat → Tm) (fuel : Nat) (s : State) : Result :=
  if s.running_ then
    let s1 := { s with running_ := false }
    match s1.worker_thread_ with
    | some tid =>
      match join clock fuel s1 tid with
      | some s2 => .ok (log_message clock "DummyApp stopped" { s2 with worker_thread_ := none })
      | none => .blocked s1
    | none => .ok (log_message clock "DummyApp stopped" s1)
  else .ok s

/-- Model of `DummyApp::~DummyApp`: the body calls `stop()`, then the member
`worker_thread_` is destroyed, and destroying a joinable `std::thread` calls
`std::terminate`. -/
def dtor (clock : Nat → Tm) (fuel : Nat) (s : State) : Result :=
  match stop clock fuel s with
  | .ok s1 => if s1.worker_thread_.isSome then .terminated s1 else .ok s1
  | r => r

end DummyApp

/-- How the process of `main` ends: with an exit code, by `std::terminate`, or not
within the fuel. -/
inductive Exit where
  | code (c : Int) (s : State)
  | aborted (s : State)
  | never (s : State)
deriving DecidableEq, Repr

/-- The exit code, when the process ended with one. -/
def Exit.status : Exit → Option Int
  | .code c _ => some c
  | .aborted _ => none
  | .never _ => none

/-- Model of `main` (a global function in the source); `argv` holds the `argc` entries of the argument vector, the
program name first.  The object is local to `main`, so no other thread writes its flag. -/
def main (clock : Nat → Tm) (fuel : Nat) (argv : List String) : Exit :=
  let app := DummyApp.ctor
    ["Simple Dummy Application v0.1.0\n", "A test application for build system standardization\n"]
  let r :=
    if decide (argv.length > 1) && (argv.getD 1 "" == "--daemon") then
      DummyApp.run_daemon clock quiet fuel
        { app with cout := app.cout ++ ["Running in daemon mode...\n"] }
    else
      .ok (DummyApp.run_foreground clock quiet
        { app with cout := app.cout ++ ["Running in foreground mode...\n"] })
  match r with
  | .ok s =>
    match DummyApp.dtor clock fuel s with
    | .ok s1 => .code 0 s1
    | .terminated s1 => .aborted s1
    | .blocked s1 => .never s1
  | .terminated s => .aborted s
  | .blocked s => .never s

/-- The lines written by successive calls of `log_message` with the given messages,
the first of them taking clock read number `start`. -/
def stamped (clock : Nat → Tm) : Nat → List String → List String
  | _, [] => []
  | start, m :: ms => log_line (clock start) m :: stamped clock (start + 1) ms

/-- Messages of `k` iterations of the foreground loop entered with `int i` at `i`. -/
def foreground_iterations_from (i k : Nat) : List String :=
  (List.range k).map fun j => "Foreground iteration " ++ toString (i + j + 1)

/-- Messages of the first `k` iterations of the foreground loop, numbered from 1. -/
def foreground_iterations (k : Nat) : List String :=
  foreground_iterations_from 0 k

/-- The spec's numbering of `n` worker lines after `c` earlier ones: the `i`-th of them
carries the number `c + i`. -/
def worker_iterations_from (c n : Nat) : List String :=
  (List.range n).map fun i => "Daemon worker iteration " ++ toString (c + i + 1)

/-- The spec's numbering of the first `n` lines of a worker loop: 1, 2, up to `n`. -/
def worker_iterations (n : Nat) : List String :=
  worker_iterations_from 0 n

/-- The value of `int counter` after `n` more executions of `++counter`. -/
def counter_after (c : Int) : Nat → Int
  | 0 => c
  | n + 1 => pre_increment (counter_after c n)

/-- The messages that `n` iterations of the worker loop log when `counter` stands at
`c` before the first of them. -/
def worker_messages_from (c : Int) : Nat → List String
  | 0 => []
  | n + 1 =>
    ("Daemon worker iteration " ++ toString (pre_increment c)) ::
      worker_messages_from (pre_increment c) n

/-- The message a worker still has to log once the flag is cleared: one line when it
has read the flag as true and not yet logged, none otherwise. -/
def Worker.last_words (w : Worker) : List String :=
  if w.pc = .body then ["Daemon worker iteration " ++ toString (pre_increment w.counter)]
  else []

/-- A worker thread as `join` leaves it: returned, its pending iteration made. -/
def Worker.joined (w : Worker) : Worker :=
  { pc := .done, counter := if w.pc = .body then pre_increment w.counter else w.counter }

/-- The messages logged by the thread that `worker_thread_` owns while `stop()` joins it. -/
def State.last_words (s : State) : List String :=
  match s.worker_thread_ with
  | none => []
  | some tid =>
    match s.threads[tid]? with
    | none => []
    | some w => w.last_words

/-- The threads after `stop()` has joined the owned one. -/
def joined_threads (s : State) : List Worker :=
  match s.worker_thread_ with
  | none => s.threads
  | some tid =>
    match s.threads[tid]? with
    | none => s.threads
    | some w => s.threads.set tid w.joined

/-- Whether thread `tid` has returned from `worker_loop`. -/
def State.returned (s : State) (tid : Nat) : Bool :=
  match s.threads[tid]? with
  | none => true
  | some w => decide (w.pc = .done)

/-- Number of background threads still inside `worker_loop`. -/
def live_workers (s : State) : Nat :=
  s.threads.countP fun w => decide (w.pc ≠ .done)

/-- Calling `stop()` `n` times in a row on the same object. -/
def stop_times (clock : Nat → Tm) (fuel : Nat) : Nat → State → Result
  | 0, s => .ok s
  | n + 1, s =>
    match DummyApp.stop clock fuel s with
    | .ok s1 => stop_times clock fuel n s1
    | r => r

/-- What can happen to one object used from several threads: a call of
`run_daemon` (up to the point where it blocks in its polling loop), a complete call
of `run_foreground`, a complete call of `stop`, or one step of worker thread `tid`. -/
inductive Event where
  | run_daemon
  | run_foreground
  | stop
  | worker (tid : Nat)
deriving DecidableEq, Repr

/-- One step of worker thread number `tid`. -/
def thread_step (clock : Nat → Tm) (s : State) (tid : Nat) : State :=
  match s.threads[tid]? with
  | none => s
  | some w =>
    let r := DummyApp.worker_step clock s w
    { r.1 with threads := r.1.threads.set tid r.2 }

/-- The effect of one event.  The join inside `stop()` gets fuel 2: with the flag
cleared a worker needs at most two steps to return. -/
def apply_event (clock : Nat → Tm) (s : State) : Event → Result
  | .run_daemon => DummyApp.run_daemon_start clock s
  | .run_foreground => .ok (DummyApp.run_foreground clock quiet s)
  | .stop => DummyApp.stop clock 2 s
  | .worker tid => .ok (thread_step clock s tid)

/-- The events of a trace applied in order, as long as the process lives. -/
def exec (clock : Nat → Tm) : State → List Event → Result
  | s, [] => .ok s
  | s, e :: es =>
    match apply_event clock s e with
    | .ok s1 => exec clock s1 es
    | r => r

/-- The right-hand side of the worker-handle invariant, read off the trace:
`running` was most recently set true by `run_daemon` and no `stop()` has completed
since.  `b` is its value before the trace. -/
def daemon_set_unstopped : Bool → List Event → Bool
  | b, [] => b
  | _, .run_daemon :: es => daemon_set_unstopped true es
  | _, .run_foreground :: es => daemon_set_unstopped false es
  | _, .stop :: es => daemon_set_unstopped false es
  | b, .worker _ :: es => daemon_set_unstopped b es

/-- The event is a call of `run_foreground`. -/
def Event.is_run_foreground : Event → Bool
  | .run_foreground => true
  | _ => false

/-- The event is a call of `run_daemon`. -/
def Event.is_run_daemon : Event → Bool
  | .run_daemon => true
  | _ => false

/-- Every event of the trace that satisfies `p` occurs while `worker_thread_` is not
joinable. -/
def only_unowned (clock : Nat → Tm) (p : Event → Bool) : State → List Event → Bool
  | _, [] => true
  | s, e :: es =>
    (!p e || s.worker_thread_.isNone) &&
      match apply_event clock s e with
      | .ok s1 => only_unowned clock p s1 es
      | _ => true

/-- A local time that `%Y-%m-%d %H:%M:%S` renders in four, two, two, two, two and two
digits: the field ranges of `struct tm` and a year from 1000 to 9999. -/
def Tm.valid (t : Tm) : Prop :=
  1000 ≤ t.tm_year + 1900 ∧ t.tm_year + 1900 ≤ 9999 ∧ t.tm_mon ≤ 11 ∧
    1 ≤ t.tm_mday ∧ t.tm_mday ≤ 31 ∧ t.tm_hour ≤ 23 ∧ t.tm_min ≤ 59 ∧ t.tm_sec ≤ 60

instance (t : Tm) : Decidable t.valid := by
  unfold Tm.valid
  infer_instance

/-- The last `width` decimal digits of `n`, most significant first, zeros included. -/
def zero_padded : Nat → Nat → List Char
  | 0, _ => []
  | width + 1, n => zero_padded width (n / 10) ++ [Nat.digitChar (n % 10)]

/-- The spec's `YYYY-MM-DD HH:MM:SS`: year, month, day, hour, minute and second of `t`
in 4, 2, 2, 2, 2 and 2 zero-padded digits. -/
def timestamp (t : Tm) : String :=
  String.mk (zero_padded 4 (t.tm_year + 1900).toNat ++ ['-'] ++ zero_padded 2 (t.tm_mon + 1) ++ ['-'] ++
    zero_padded 2 t.tm_mday ++ [' '] ++ zero_padded 2 t.tm_hour ++ [':'] ++
    zero_padded 2 t.tm_min ++ [':'] ++ zero_padded 2 t.tm_sec)

/-- A daemon run caught while its worker, two lines logged, is inside the loop body
for the third time. -/
def sample_daemon_state : State :=
  { running_ := true
    worker_thread_ := some 0
    threads := [{ pc := .body, counter := 2 }]
    cout := ["DummyApp initialized\n"]
    clock_reads := 3 }

/-- Interference for concrete runs: another thread clears the flag while the loop is in
its second iteration, so the third evaluation of the condition reads false. -/
def sample_stop_request : Env :=
  fun k b => b && decide (k < 2)

/-- Interference for concrete runs: the flag stays set for the first `2^31` checks of a
worker and is cleared before the next. -/
def sample_long_run : Env :=
  fun k _ => decide (k < 2147483648)

/-- A local time in the year 10000: 1 January, 00:00:00. -/
def sample_year_10000 : Tm :=
  { tm_year := 8100, tm_mon := 0, tm_mday := 1, tm_hour := 0, tm_min := 0, tm_sec := 0 }

/-- A local time in the year 999: 1 January, 00:00:00. -/
def sample_year_999 : Tm :=
  { tm_year := -901, tm_mon := 0, tm_mday := 1, tm_hour := 0, tm_min := 0, tm_sec := 0 }

/-- Interference for concrete runs: the flag is set while a worker makes its first three
checks and cleared before its fourth. -/
def sample_three_rounds : Env :=
  fun k _ => decide (k < 3)

/-- A trace for concrete runs: a daemon run whose worker is stopped inside its second
iteration, a second `stop()`, a foreground run, then a second daemon run. -/
def sample_trace : List Event :=
  [.run_daemon, .worker 0, .worker 0, .worker 0, .stop, .stop, .run_foreground, .run_daemon,
    .worker 1, .worker 0]

/-- A clock for concrete runs: 5 January 2024, 07:08 and `k` seconds at read `k`. -/
def sample_clock (k : Nat) : Tm :=
  { tm_year := 124, tm_mon := 0, tm_mday := 5, tm_hour := 7, tm_min := 8, tm_sec := k % 60 }

/-! ## Basic facts about the building blocks -/

section basics

open DummyApp

@[simp] theorem log_message_running (clock : Nat → Tm) (m : String) (s : State) :
    (log_message clock m s).running_ = s.running_ := rfl

@[simp] theorem log_message_worker_thread (clock : Nat → Tm) (m : String) (s : State) :
    (log_message clock m s).worker_thread_ = s.worker_thread_ := rfl

@[simp] theorem log_message_threads (clock : Nat → Tm) (m : String) (s : State) :
    (log_message clock m s).threads = s.threads := rfl

@[simp] theorem log_message_cout (clock : Nat → Tm) (m : String) (s : State) :
    (log_message clock m s).cout = s.cout ++ [log_line (clock s.clock_reads) m] := rfl

@[simp] theorem log_message_clock_reads (clock : Nat → Tm) (m : String) (s : State) :
    (log_message clock m s).clock_reads = s.clock_reads + 1 := rfl

/-- With the flag cleared and nobody writing it, a worker returns within two steps,
having logged at most the one line it was about to write. -/
theorem worker_run_cleared (clock : Nat → Tm) (fuel k : Nat) (s : State) (w : Worker)
    (h : s.running_ = false) (hf : 2 ≤ fuel) :
    worker_run clock quiet fuel k s w =
      some ({ s with
              cout := s.cout ++ stamped clock s.clock_reads w.last_words
              clock_reads := s.clock_reads + w.last_words.length },
            w.joined) := by
  obtain ⟨f, rfl⟩ : ∃ f, fuel = f + 1 + 1 := ⟨fuel - 2, by omega⟩
  obtain ⟨pc, c⟩ := w
  obtain ⟨r, wt, th, co, cr⟩ := s
  simp only at h
  subst h
  cases pc
  · cases f <;>
      simp [worker_run, worker_step, quiet, Worker.last_words, Worker.joined, stamped]
  · cases f <;>
      simp [worker_run, worker_step, quiet, Worker.last_words, Worker.joined, stamped,
        log_message]
  · simp [worker_run, Worker.last_words, Worker.joined, stamped]

/-- The join inside `stop()`: it ends within two worker steps and leaves the joined
thread returned. -/
theorem join_cleared (clock : Nat → Tm) (fuel : Nat) (s : State) (tid : Nat)
    (h : s.running_ = false) (hf : 2 ≤ fuel) :
    join clock fuel s tid =
      match s.threads[tid]? with
      | none => some s
      | some w =>
        some { s with
               cout := s.cout ++ stamped clock s.clock_reads w.last_words
               clock_reads := s.clock_reads + w.last_words.length
               threads := s.threads.set tid w.joined } := by
  unfold join
  cases hw : s.threads[tid]? with
  | none => rfl
  | some w => simp [worker_run_cleared clock fuel 0 s w h hf]

theorem stamped_append (clock : Nat → Tm) (n : Nat) (a b : List String) :
    stamped clock n (a ++ b) = stamped clock n a ++ stamped clock (n + a.length) b := by
  induction a generalizing n with
  | nil => simp [stamped]
  | cons m ms ih => simp [stamped, ih, Nat.add_assoc, Nat.add_comm 1]

@[simp] theorem stamped_length (clock : Nat → Tm) (n : Nat) (a : List String) :
    (stamped clock n a).length = a.length := by
  induction a generalizing n with
  | nil => simp [stamped]
  | cons m ms ih => simp [stamped, ih]

theorem last_words_length_le (w : Worker) : w.last_words.length ≤ 1 := by
  unfold Worker.last_words
  split <;> simp

end basics

/-! ## The member function `stop()` -/

section stop

open DummyApp

/-- What `stop()` does to a running object, in closed form. -/
theorem stop_running_eq (clock : Nat → Tm) (fuel : Nat) (s : State)
    (h : s.running_ = true) (hf : 2 ≤ fuel) :
    stop clock fuel s = .ok
      { running_ := false
        worker_thread_ := none
        threads := joined_threads s
        cout := s.cout ++ stamped clock s.clock_reads (s.last_words ++ ["DummyApp stopped"])
        clock_reads := s.clock_reads + s.last_words.length + 1 } := by
  obtain ⟨r, wt, th, co, cr⟩ := s
  simp only at h
  subst h
  cases wt with
  | none =>
    simp [stop, State.last_words, stamped, joined_threads, log_message]
  | some tid =>
    have hj := join_cleared clock fuel
      { running_ := false, worker_thread_ := some tid, threads := th, cout := co, clock_reads := cr }
      tid rfl hf
    cases hw : th[tid]? with
    | none =>
      simp only [hw] at hj
      simp [stop, hj, hw, State.last_words, stamped, joined_threads, log_message]
    | some w =>
      simp only [hw] at hj
      simp [stop, hj, hw, State.last_words, stamped_append, stamped, joined_threads, log_message]

theorem stop_not_running_eq (clock : Nat → Tm) (fuel : Nat) (s : State)
    (h : s.running_ = false) : stop clock fuel s = .ok s := by
  simp [stop, h]

theorem last_words_not_stopped (s : State) : "DummyApp stopped" ∉ s.last_words := by
  unfold State.last_words
  split
  · simp
  · split
    · simp
    · rename_i w _
      unfold Worker.last_words
      split
      · intro hmem
        have h := congrArg String.data (List.mem_singleton.1 hmem)
        simp at h
      · simp

/-- C1: `stop()` is idempotent.  From every state (flag set or not, handle present or
not) and for every `N ≥ 1`, `N` calls of `stop()` in a row return and leave the state that
one call leaves, in which `running_` is false; any further call returns that state
unchanged, so it writes no line and raises no error.  The join needs fuel 2 at most. -/
theorem C1_stop_idempotent (clock : Nat → Tm) (fuel : Nat) (s : State) (N : Nat)
    (hf : 2 ≤ fuel) (hN : 1 ≤ N) :
    ∃ s1, stop clock fuel s = .ok s1 ∧ stop_times clock fuel N s = .ok s1 ∧
      s1.running_ = false ∧ ∀ f, stop clock f s1 = .ok s1 := by
  have key : ∃ s1, stop clock fuel s = .ok s1 ∧ s1.running_ = false := by
    cases h : s.running_ with
    | false => exact ⟨s, stop_not_running_eq clock fuel s h, h⟩
    | true => exact ⟨_, stop_running_eq clock fuel s h hf, rfl⟩
  obtain ⟨s1, h1, hr⟩ := key
  have again : ∀ n, stop_times clock fuel n s1 = .ok s1 := by
    intro n
    induction n with
    | zero => rfl
    | succ n ih => simp [stop_times, stop_not_running_eq clock fuel s1 hr, ih]
  refine ⟨s1, h1, ?_, hr, fun f => stop_not_running_eq clock f s1 hr⟩
  obtain ⟨n, rfl⟩ : ∃ n, N = n + 1 := ⟨N - 1, by omega⟩
  simp [stop_times, h1, again n]

/-- Witness of C1: three calls of `stop()` on a running daemon. -/
theorem C1_stop_idempotent_witness :
    ∃ s1, stop sample_clock 2 sample_daemon_state = .ok s1 ∧
      stop_times sample_clock 2 3 sample_daemon_state = .ok s1 ∧
      s1.running_ = false ∧ ∀ f, stop sample_clock f s1 = .ok s1 :=
  C1_stop_idempotent sample_clock 2 sample_daemon_state 3 (by decide) (by decide)

/-- C2: from every state with `running_` true, `stop()` returns (the join takes at most
two worker steps) with `running_` false and the handle not joinable; the thread the
handle owned has returned from `worker_loop`; the destructor ends the same way, without
`std::terminate`.  The messages logged are those of the joined worker (at most one, never
"DummyApp stopped") followed by exactly one "DummyApp stopped", which is appended to
the output as the join left it. -/
theorem C2_stop_joins_worker (clock : Nat → Tm) (fuel : Nat) (s : State)
    (h : s.running_ = true) (hf : 2 ≤ fuel) :
    ∃ s1, stop clock fuel s = .ok s1 ∧ dtor clock fuel s = .ok s1 ∧
      s1.running_ = false ∧ s1.worker_thread_ = none ∧
      (∀ tid, s.worker_thread_ = some tid → s1.returned tid = true) ∧
      s1.cout = s.cout ++ stamped clock s.clock_reads (s.last_words ++ ["DummyApp stopped"]) ∧
      s.last_words.length ≤ 1 ∧ "DummyApp stopped" ∉ s.last_words ∧
      (∀ tid, s.worker_thread_ = some tid →
        ∃ sj, join clock fuel { s with running_ := false } tid = some sj ∧
          sj.returned tid = true ∧
          s1.cout = sj.cout ++ [log_line (clock sj.clock_reads) "DummyApp stopped"]) := by
  refine ⟨_, stop_running_eq clock fuel s h hf, ?_, rfl, rfl, ?_, rfl, ?_,
    last_words_not_stopped s, ?_⟩
  · simp [dtor, stop_running_eq clock fuel s h hf]
  · intro tid ht
    simp only [State.returned, joined_threads, ht]
    cases hw : s.threads[tid]? with
    | none => simp [hw]
    | some w =>
      have hlt : tid < s.threads.length := (List.getElem?_eq_some.1 hw).1
      simp [hlt, Worker.joined]
  · unfold State.last_words
    split
    · simp
    · split
      · simp
      · exact last_words_length_le _
  · intro tid ht
    have hj := join_cleared clock fuel { s with running_ := false } tid rfl hf
    simp only [State.last_words, ht] at hj ⊢
    cases hw : s.threads[tid]? with
    | none =>
      simp only [hw] at hj
      refine ⟨_, hj, ?_, ?_⟩
      · simp [State.returned, hw]
      · simp [stamped]
    | some w =>
      simp only [hw] at hj
      have hlt : tid < s.threads.length := (List.getElem?_eq_some.1 hw).1
      refine ⟨_, hj, ?_, ?_⟩
      · simp [State.returned, hlt, Worker.joined]
      · simp [stamped_append, stamped]

/-- Witness of C2: a running daemon whose worker is inside its loop body. -/
theorem C2_stop_joins_worker_witness :
    ∃ s1, stop sample_clock 2 sample_daemon_state = .ok s1 ∧
      dtor sample_clock 2 sample_daemon_state = .ok s1 ∧
      s1.running_ = false ∧ s1.worker_thread_ = none ∧
      (∀ tid, sample_daemon_state.worker_thread_ = some tid → s1.returned tid = true) ∧
      s1.cout = sample_daemon_state.cout ++ stamped sample_clock sample_daemon_state.clock_reads
        (sample_daemon_state.last_words ++ ["DummyApp stopped"]) ∧
      sample_daemon_state.last_words.length ≤ 1 ∧
      "DummyApp stopped" ∉ sample_daemon_state.last_words ∧
      (∀ tid, sample_daemon_state.worker_thread_ = some tid →
        ∃ sj, join sample_clock 2 { sample_daemon_state with running_ := false } tid = some sj ∧
          sj.returned tid = true ∧
          s1.cout = sj.cout ++ [log_line (sample_clock sj.clock_reads) "DummyApp stopped"]) :=
  C2_stop_joins_worker sample_clock 2 sample_daemon_state (by decide) (by decide)

/-- C3: `stop()` is a no-op whenever `running_` is false: it returns the state it
was given, so flag, handle, threads and output are unchanged and no line is written.
In particular this holds for a freshly constructed object and for an object whose
`run_foreground()` has returned, whatever happened to the flag during that run. -/
theorem C3_stop_noop_when_not_running (clock : Nat → Tm) (fuel : Nat) (s : State)
    (h : s.running_ = false) :
    stop clock fuel s = .ok s ∧
      (∀ cout, stop clock fuel (ctor cout) = .ok (ctor cout)) ∧
      (∀ env s0, stop clock fuel (run_foreground clock env s0) =
        .ok (run_foreground clock env s0)) :=
  ⟨stop_not_running_eq clock fuel s h,
    fun _ => stop_not_running_eq clock fuel _ rfl,
    fun _ _ => stop_not_running_eq clock fuel _ rfl⟩

/-- Witness of C3: `stop()` on an object that was never run. -/
theorem C3_stop_noop_when_not_running_witness :
    stop sample_clock 0 (ctor []) = .ok (ctor []) ∧
      (∀ cout, stop sample_clock 0 (ctor cout) = .ok (ctor cout)) ∧
      (∀ env s0, stop sample_clock 0 (run_foreground sample_clock env s0) =
        .ok (run_foreground sample_clock env s0)) :=
  C3_stop_noop_when_not_running sample_clock 0 (ctor []) rfl

end stop

/-! ## The member function `run_foreground()` -/

section foreground

open DummyApp

theorem foreground_iterations_from_succ (i k : Nat) :
    foreground_iterations_from i (k + 1) =
      ("Foreground iteration " ++ toString (i + 1)) :: foreground_iterations_from (i + 1) k := by
  simp [foreground_iterations_from, List.range_succ_eq_map, List.map_map, Function.comp_def,
    Nat.add_assoc, Nat.add_comm 1]

/-- The loop of `run_foreground` in closed form: `k` iterations, ended by the bound or
by the first check that reads the flag as false. -/
theorem foreground_loop_eq (clock : Nat → Tm) (env : Env) (bound : Nat) :
    ∀ (i k : Nat) (s : State), k ≤ bound → s.running_ = true →
      (∀ j, j < k → env (i + j) true = true) → (k < bound → env (i + k) true = false) →
      (foreground_loop clock env bound i s).worker_thread_ = s.worker_thread_ ∧
      (foreground_loop clock env bound i s).threads = s.threads ∧
      (foreground_loop clock env bound i s).cout =
        s.cout ++ stamped clock s.clock_reads (foreground_iterations_from i k) ∧
      (foreground_loop clock env bound i s).clock_reads = s.clock_reads + k := by
  induction bound with
  | zero =>
    intro i k s hk _ _ _
    have : k = 0 := by omega
    subst this
    simp [foreground_loop, foreground_iterations_from, stamped]
  | succ bound ih =>
    intro i k s hk hr htrue hfalse
    cases k with
    | zero =>
      have h0 : env i true = false := by simpa using hfalse (by omega)
      simp [foreground_loop, hr, h0, foreground_iterations_from, stamped]
    | succ k =>
      have h0 : env i true = true := by simpa using htrue 0 (by omega)
      obtain ⟨e1, e2, e3, e4⟩ := ih (i + 1) k
        (log_message clock ("Foreground iteration " ++ toString (i + 1))
          { s with running_ := env i s.running_ })
        (by omega) (by simp [hr, h0])
        (fun j hj => by
          have := htrue (j + 1) (by omega)
          simpa [Nat.add_assoc, Nat.add_comm 1] using this)
        (fun hlt => by
          have := hfalse (by omega)
          simpa [Nat.add_assoc, Nat.add_comm 1] using this)
      simp only [hr, h0] at e1 e2 e3 e4
      simp only [foreground_loop, hr, h0, if_true]
      refine ⟨e1, e2, ?_, ?_⟩
      · rw [e3]
        simp [foreground_iterations_from_succ, stamped]
      · rw [e4]
        simp [Nat.add_assoc, Nat.add_comm 1]

/-- Every loop condition up to the `k`-th reads what the environment makes of a set
flag, as long as all earlier ones read it as true. -/
theorem observed_eq_env (env : Env) (k : Nat)
    (h : ∀ j, j < k → observed env true j = true) :
    ∀ j, j ≤ k → observed env true j = env j true := by
  intro j hj
  cases j with
  | zero => rfl
  | succ j =>
    have := h j (by omega)
    simp [observed, this]

/-- What `run_foreground` does when its loop makes `k` iterations. -/
theorem run_foreground_eq (clock : Nat → Tm) (env : Env) (s : State) (k : Nat) (hk : k ≤ 5)
    (htrue : ∀ j, j < k → observed env true j = true)
    (hfalse : k < 5 → observed env true k = false) :
    run_foreground clock env s =
      { s with
        running_ := false
        cout := s.cout ++ stamped clock s.clock_reads
          (["DummyApp running in foreground"] ++ foreground_iterations k ++
            ["DummyApp foreground mode completed"])
        clock_reads := s.clock_reads + (k + 2) } := by
  have henv := observed_eq_env env k htrue
  obtain ⟨e1, e2, e3, e4⟩ := foreground_loop_eq clock env 5 0 k
    (log_message clock "DummyApp running in foreground" { s with running_ := true })
    hk rfl
    (fun j hj => by
      rw [Nat.zero_add, ← henv j (by omega)]
      exact htrue j hj)
    (fun hlt => by
      rw [Nat.zero_add, ← henv k (by omega)]
      exact hfalse hlt)
  simp only [run_foreground, log_message]
  simp only [log_message] at e1 e2 e3 e4
  rw [e1, e2, e3, e4]
  simp [stamped, stamped_append, foreground_iterations, foreground_iterations_from,
    Nat.add_assoc, Nat.add_comm 1]

/-- The number of iterations the loop of `run_foreground` makes under `env`: the index
of the first of its five checks that reads the flag as false, or five. -/
theorem foreground_iterations_exist (env : Env) :
    ∃ k, k ≤ 5 ∧ (∀ j, j < k → observed env true j = true) ∧
      (k < 5 → observed env true k = false) := by
  by_cases h0 : observed env true 0 = true
  · by_cases h1 : observed env true 1 = true
    · by_cases h2 : observed env true 2 = true
      · by_cases h3 : observed env true 3 = true
        · by_cases h4 : observed env true 4 = true
          · refine ⟨5, by omega, ?_, by omega⟩
            intro j hj
            interval_cases j
            all_goals assumption
          · refine ⟨4, by omega, ?_, fun _ => by simpa using h4⟩
            intro j hj
            interval_cases j
            all_goals assumption
        · refine ⟨3, by omega, ?_, fun _ => by simpa using h3⟩
          intro j hj
          interval_cases j
          all_goals assumption
      · refine ⟨2, by omega, ?_, fun _ => by simpa using h2⟩
        intro j hj
        interval_cases j
        all_goals assumption
    · refine ⟨1, by omega, ?_, fun _ => by simpa using h1⟩
      intro j hj
      interval_cases j
      all_goals assumption
  · exact ⟨0, by omega, fun j hj => by omega, fun _ => by simpa using h0⟩

theorem foreground_iterations_length (k : Nat) : (foreground_iterations k).length = k := by
  simp [foreground_iterations, foreground_iterations_from]

theorem foreground_iterations_get (k i : Nat) (h : i < k) :
    (foreground_iterations k)[i]? = some ("Foreground iteration " ++ toString (i + 1)) := by
  simp [foreground_iterations, foreground_iterations_from, List.getElem?_map,
    List.getElem?_range h]

/-- A foreground run whose five checks all read the flag as true, written out. -/
theorem run_foreground_full (clock : Nat → Tm) (env : Env) (s : State)
    (h : ∀ k, k < 5 → observed env true k = true) :
    run_foreground clock env s =
      { s with
        running_ := false
        cout := s.cout ++ stamped clock s.clock_reads
          ["DummyApp running in foreground", "Foreground iteration 1", "Foreground iteration 2",
            "Foreground iteration 3", "Foreground iteration 4", "Foreground iteration 5",
            "DummyApp foreground mode completed"]
        clock_reads := s.clock_reads + 7 } := by
  rw [run_foreground_eq clock env s 5 (by omega) h (by omega)]
  rfl

/-- C4: when every one of the five loop checks reads the flag as true (no stop is
requested during the run), `run_foreground()` from any state returns with `running_`
false, having left handle and threads alone and logged exactly seven lines: "DummyApp
running in foreground", then "Foreground iteration 1" to "Foreground iteration 5" in
that order, then "DummyApp foreground mode completed". -/
theorem C4_run_foreground_five_iterations (clock : Nat → Tm) (env : Env) (s : State)
    (h : ∀ k, k < 5 → observed env true k = true) :
    run_foreground clock env s =
      { s with
        running_ := false
        cout := s.cout ++ stamped clock s.clock_reads
          ["DummyApp running in foreground", "Foreground iteration 1", "Foreground iteration 2",
            "Foreground iteration 3", "Foreground iteration 4", "Foreground iteration 5",
            "DummyApp foreground mode completed"]
        clock_reads := s.clock_reads + 7 } :=
  run_foreground_full clock env s h

/-- Witness of C4: a foreground run of a fresh object with no interference. -/
theorem C4_run_foreground_five_iterations_witness :
    run_foreground sample_clock quiet (ctor []) =
      { ctor [] with
        running_ := false
        cout := (ctor []).cout ++ stamped sample_clock (ctor []).clock_reads
          ["DummyApp running in foreground", "Foreground iteration 1", "Foreground iteration 2",
            "Foreground iteration 3", "Foreground iteration 4", "Foreground iteration 5",
            "DummyApp foreground mode completed"]
        clock_reads := (ctor []).clock_reads + 7 } :=
  C4_run_foreground_five_iterations sample_clock quiet (ctor []) (by decide)

/-- C9: when the check before iteration `k + 1` (`k < 5`) is the first to read the flag
as false, `run_foreground()` returns with `running_` false, having logged "DummyApp
running in foreground", exactly `k` iteration lines numbered 1 to `k`, and "DummyApp
foreground mode completed".  Whatever happens to the flag, the number of iteration lines
is at most 5 and the completed line is written. -/
theorem C9_run_foreground_early_stop (clock : Nat → Tm) (env : Env) (s : State) (k : Nat)
    (hk : k < 5) (htrue : ∀ j, j < k → observed env true j = true)
    (hfalse : observed env true k = false) :
    run_foreground clock env s =
      { s with
        running_ := false
        cout := s.cout ++ stamped clock s.clock_reads
          (["DummyApp running in foreground"] ++ foreground_iterations k ++
            ["DummyApp foreground mode completed"])
        clock_reads := s.clock_reads + (k + 2) } ∧
    (foreground_iterations k).length = k ∧
    (∀ i, i < k →
      (foreground_iterations k)[i]? = some ("Foreground iteration " ++ toString (i + 1))) ∧
    (∀ (env1 : Env) (s1 : State), ∃ n, n ≤ 5 ∧
      run_foreground clock env1 s1 =
        { s1 with
          running_ := false
          cout := s1.cout ++ stamped clock s1.clock_reads
            (["DummyApp running in foreground"] ++ foreground_iterations n ++
              ["DummyApp foreground mode completed"])
          clock_reads := s1.clock_reads + (n + 2) }) := by
  refine ⟨run_foreground_eq clock env s k (by omega) htrue (fun _ => hfalse),
    foreground_iterations_length k, foreground_iterations_get k, ?_⟩
  intro env1 s1
  obtain ⟨n, hn, h1, h2⟩ := foreground_iterations_exist env1
  exact ⟨n, hn, run_foreground_eq clock env1 s1 n hn h1 h2⟩

/-- Witness of C9: the flag is cleared during the second iteration, two lines appear. -/
theorem C9_run_foreground_early_stop_witness :
    run_foreground sample_clock sample_stop_request (ctor []) =
      { ctor [] with
        running_ := false
        cout := (ctor []).cout ++ stamped sample_clock (ctor []).clock_reads
          (["DummyApp running in foreground"] ++ foreground_iterations 2 ++
            ["DummyApp foreground mode completed"])
        clock_reads := (ctor []).clock_reads + (2 + 2) } ∧
    (foreground_iterations 2).length = 2 ∧
    (∀ i, i < 2 →
      (foreground_iterations 2)[i]? = some ("Foreground iteration " ++ toString (i + 1))) ∧
    (∀ (env1 : Env) (s1 : State), ∃ n, n ≤ 5 ∧
      run_foreground sample_clock env1 s1 =
        { s1 with
          running_ := false
          cout := s1.cout ++ stamped sample_clock s1.clock_reads
            (["DummyApp running in foreground"] ++ foreground_iterations n ++
              ["DummyApp foreground mode completed"])
          clock_reads := s1.clock_reads + (n + 2) }) :=
  C9_run_foreground_early_stop sample_clock sample_stop_request (ctor []) 2
    (by decide) (by decide) (by decide)

end foreground

/-! ## The member function `worker_loop()` -/

section worker

open DummyApp

theorem worker_run_done (clock : Nat → Tm) (env : Env) (fuel k : Nat) (s : State) (c : Int) :
    worker_run clock env fuel k s { pc := .done, counter := c } =
      some (s, { pc := .done, counter := c }) := by
  cases fuel <;> simp [worker_run]

theorem observed_shift (env : Env) (k : Nat) (b : Bool) (j : Nat) :
    observed (fun i => env (k + i)) b (j + 1) =
      observed (fun i => env (k + 1 + i)) (env k b) j := by
  induction j with
  | zero => simp [observed]
  | succ j ih =>
    rw [observed, ih]
    simp [observed, Nat.add_assoc, Nat.add_comm 1]

theorem observed_const (f : Nat → Bool) (b : Bool) (k : Nat) :
    observed (fun i _ => f i) b k = f k := by
  cases k <;> rfl

/-- A worker at its loop condition that reads the flag as true exactly `n` times, in
closed form, whatever the value of `counter`. -/
theorem worker_run_eq (clock : Nat → Tm) (env : Env) (n : Nat) :
    ∀ (fuel k : Nat) (c : Int) (s : State), 2 * n + 1 ≤ fuel →
      (∀ j, j < n → observed (fun i => env (k + i)) s.running_ j = true) →
      observed (fun i => env (k + i)) s.running_ n = false →
      worker_run clock env fuel k s { pc := .check, counter := c } =
        some ({ s with
                running_ := false
                cout := s.cout ++ stamped clock s.clock_reads (worker_messages_from c n)
                clock_reads := s.clock_reads + n },
              { pc := .done, counter := counter_after c n }) := by
  induction n with
  | zero =>
    intro fuel k c s hf _ hfalse
    obtain ⟨f, rfl⟩ : ∃ f, fuel = f + 1 := ⟨fuel - 1, by omega⟩
    have h0 : env k s.running_ = false := by simpa [observed] using hfalse
    simp [worker_run, worker_step, h0, worker_run_done, worker_messages_from, counter_after,
      stamped]
  | succ n ih =>
    intro fuel k c s hf htrue hfalse
    obtain ⟨f, rfl⟩ : ∃ f, fuel = f + 1 + 1 := ⟨fuel - 2, by omega⟩
    have h0 : env k s.running_ = true := by simpa [observed] using htrue 0 (by omega)
    have step := ih f (k + 1) (pre_increment c)
      (log_message clock ("Daemon worker iteration " ++ toString (pre_increment c))
        { s with running_ := env k s.running_ })
      (by omega)
      (fun j hj => by
        have := htrue (j + 1) (by omega)
        rw [observed_shift] at this
        simpa using this)
      (by
        have := hfalse
        rw [observed_shift] at this
        simpa using this)
    have hc : ∀ m, counter_after (pre_increment c) m = counter_after c (m + 1) := by
      intro m
      induction m with
      | zero => rfl
      | succ m ihm => simp only [counter_after] at ihm ⊢; rw [ihm]
    simp only [worker_run, worker_step, h0, if_true]
    simp only [h0] at step
    rw [step, hc n]
    simp [worker_messages_from, stamped, Nat.add_assoc, Nat.add_comm 1]

theorem pre_increment_of_lt (c : Nat) (h : c < 2147483647) :
    pre_increment (c : Int) = ((c + 1 : Nat) : Int) := by
  unfold pre_increment
  omega

/-- Up to `2147483647` the counter counts and the lines carry the spec's numbers. -/
theorem worker_messages_in_range (n : Nat) :
    ∀ c : Nat, c + n ≤ 2147483647 →
      worker_messages_from (c : Int) n = worker_iterations_from c n ∧
        counter_after (c : Int) n = ((c + n : Nat) : Int) := by
  induction n with
  | zero =>
    intro c _
    exact ⟨by simp [worker_messages_from, worker_iterations_from], rfl⟩
  | succ n ih =>
    intro c hc
    obtain ⟨e1, _⟩ := ih (c + 1) (by omega)
    obtain ⟨_, e2⟩ := ih c (by omega)
    constructor
    · rw [worker_messages_from, pre_increment_of_lt c (by omega), e1]
      simp only [worker_iterations_from, List.range_succ_eq_map, List.map_cons, List.map_map]
      refine congrArg₂ _ rfl (List.map_congr_left fun i _ => ?_)
      simp [Function.comp_def, Nat.add_assoc, Nat.add_comm 1]
    · rw [counter_after, e2, pre_increment_of_lt (c + n) (by omega)]
      rfl

theorem worker_messages_from_snoc (n : Nat) :
    ∀ c : Int, worker_messages_from c (n + 1) =
      worker_messages_from c n ++
        ["Daemon worker iteration " ++ toString (counter_after c (n + 1))] := by
  induction n with
  | zero => intro c; rfl
  | succ n ih =>
    intro c
    have hc : ∀ m, counter_after (pre_increment c) m = counter_after c (m + 1) := by
      intro m
      induction m with
      | zero => rfl
      | succ m ihm => simp only [counter_after] at ihm ⊢; rw [ihm]
    rw [worker_messages_from, ih (pre_increment c), hc (n + 1)]
    rfl

theorem worker_messages_from_length (n : Nat) :
    ∀ c : Int, (worker_messages_from c n).length = n := by
  induction n with
  | zero => intro c; rfl
  | succ n ih => intro c; simp [worker_messages_from, ih]

theorem worker_iterations_length (n : Nat) : (worker_iterations n).length = n := by
  simp [worker_iterations, worker_iterations_from]

/-- One iteration beyond `2147483647`: the counter wraps and the last line carries
`-2147483648`. -/
theorem worker_loop_overflow (clock : Nat → Tm) (env : Env) (s : State) (fuel N : Nat)
    (hN : N = 2147483647) (hf : 2 * (N + 1) + 1 ≤ fuel)
    (htrue : ∀ j, j < N + 1 → observed env s.running_ j = true)
    (hfalse : observed env s.running_ (N + 1) = false) :
    worker_loop clock env fuel s =
      some ({ s with
              running_ := false
              cout := s.cout ++ stamped clock s.clock_reads (worker_iterations N) ++
                [log_line (clock (s.clock_reads + N)) "Daemon worker iteration -2147483648"]
              clock_reads := s.clock_reads + (N + 1) },
            { pc := .done, counter := -2147483648 }) := by
  have henv : (fun i => env (0 + i)) = env := by
    funext i
    rw [Nat.zero_add]
  have run := worker_run_eq clock env (N + 1) fuel 0 0 s hf
    (by rw [henv]; exact htrue) (by rw [henv]; exact hfalse)
  obtain ⟨e1, e2⟩ := worker_messages_in_range N 0 (by omega)
  simp only [Nat.cast_zero, Nat.zero_add] at e1 e2
  have hwrap : pre_increment (N : Int) = -2147483648 := by
    unfold pre_increment
    omega
  have hlast : counter_after 0 (N + 1) = -2147483648 := by
    rw [counter_after, e2, hwrap]
  have htext : toString (-2147483648 : Int) = "-2147483648" := by decide
  rw [worker_messages_from_snoc N 0, e1, hlast, htext, stamped_append] at run
  simp only [worker_loop, Worker.start]
  rw [run]
  simp only [stamped, worker_iterations, stamped_length, worker_iterations_length,
    List.append_assoc]
  have hl : (worker_iterations_from 0 N).length = N := worker_iterations_length N
  have hcat : "Daemon worker iteration " ++ "-2147483648" =
      "Daemon worker iteration -2147483648" := by
    decide
  rw [hl, hcat]

/-- C10 fails as stated at `n = 2147483648`: the worker that reads the flag as true at
exactly its first `2147483648` checks ends its `2147483648`-th line with the number
`-2147483648`, not `2147483648`, because `++counter` leaves the range of `int`. -/
theorem C10_counterexample :
    ∃ s w, worker_loop sample_clock sample_long_run 4294967297 (ctor []) = some (s, w) ∧
      s.cout.length = 2147483648 + 1 ∧
      s.cout.getLast? =
        some (log_line (sample_clock 2147483647) "Daemon worker iteration -2147483648") ∧
      s.cout.getLast? ≠
        some (log_line (sample_clock 2147483647) "Daemon worker iteration 2147483648") := by
  have hobs : ∀ j, observed sample_long_run (ctor []).running_ j = decide (j < 2147483648) :=
    fun j => observed_const (fun k => decide (k < 2147483648)) _ j
  have run := worker_loop_overflow sample_clock sample_long_run (ctor []) 4294967297
    2147483647 rfl (by omega)
    (fun j hj => by rw [hobs j]; exact decide_eq_true (by omega))
    (by rw [hobs]; exact decide_eq_false (by omega))
  have hlast : ∀ (l : List String) (x : String), (l ++ [x]).getLast? = some x :=
    fun l x => List.getLast?_concat l
  refine ⟨_, _, run, ?_, ?_, ?_⟩
  · show ((ctor []).cout ++ stamped sample_clock (ctor []).clock_reads
      (worker_iterations 2147483647) ++ [_]).length = _
    rw [List.length_append, List.length_append, stamped_length, worker_iterations_length]
    rfl
  · show ((ctor []).cout ++ stamped sample_clock (ctor []).clock_reads
      (worker_iterations 2147483647) ++ [_]).getLast? = _
    rw [hlast]
    rfl
  · show ((ctor []).cout ++ stamped sample_clock (ctor []).clock_reads
      (worker_iterations 2147483647) ++ [_]).getLast? ≠ _
    rw [hlast]
    decide

/-- C10, as amended: the iteration counter of a daemon worker belongs to one run and
grows by one per line as long as it fits `int`.  For every `n` up to `2147483647`, a
worker loop whose first `n` checks read the flag as true and whose next check reads it
as false returns (`2 * n + 1` steps suffice) having logged exactly `n` lines, the
`i`-th being "Daemon worker iteration i"; for `n = 0` it logs nothing.  The state it
starts from is arbitrary, and every thread started by `run_daemon` enters the loop with
its counter at 0, so a new run starts again at 1. -/
theorem C10_worker_loop_counts_from_one (clock : Nat → Tm) (env : Env) (s : State)
    (n fuel : Nat) (hn : n ≤ 2147483647) (hf : 2 * n + 1 ≤ fuel)
    (htrue : ∀ j, j < n → observed env s.running_ j = true)
    (hfalse : observed env s.running_ n = false) :
    worker_loop clock env fuel s =
      some ({ s with
              running_ := false
              cout := s.cout ++ stamped clock s.clock_reads (worker_iterations n)
              clock_reads := s.clock_reads + n },
            { pc := .done, counter := n }) ∧
    (worker_iterations n).length = n ∧
    (∀ i, i < n →
      (worker_iterations n)[i]? = some ("Daemon worker iteration " ++ toString (i + 1))) ∧
    (∀ s0 s1, run_daemon_start clock s0 = .ok s1 →
      s1.worker_thread_ = some s0.threads.length ∧
        s1.threads[s0.threads.length]? = some Worker.start) := by
  have henv : (fun i => env (0 + i)) = env := by
    funext i
    rw [Nat.zero_add]
  refine ⟨?_, ?_, ?_, ?_⟩
  · have := worker_run_eq clock env n fuel 0 0 s hf
      (by rw [henv]; exact htrue) (by rw [henv]; exact hfalse)
    obtain ⟨e1, e2⟩ := worker_messages_in_range n 0 (by omega)
    simp only [Nat.cast_zero] at e1 e2
    rw [e1, e2] at this
    simpa [worker_loop, Worker.start, worker_iterations] using this
  · simp [worker_iterations, worker_iterations_from]
  · intro i hi
    simp [worker_iterations, worker_iterations_from, List.getElem?_map, List.getElem?_range hi]
  · intro s0 s1 h
    unfold run_daemon_start at h
    cases hw : s0.worker_thread_ with
    | some tid => simp [hw] at h
    | none =>
      simp [hw] at h
      subst h
      simp

/-- Witness of C10 as amended: a worker that finds the flag set three times logs lines
1, 2, 3. -/
theorem C10_worker_loop_counts_from_one_witness :
    worker_loop sample_clock sample_three_rounds 7 (ctor []) =
      some ({ ctor [] with
              running_ := false
              cout := (ctor []).cout ++ stamped sample_clock (ctor []).clock_reads
                (worker_iterations 3)
              clock_reads := (ctor []).clock_reads + 3 },
            { pc := .done, counter := (3 : Nat) }) ∧
    (worker_iterations 3).length = 3 ∧
    (∀ i, i < 3 →
      (worker_iterations 3)[i]? = some ("Daemon worker iteration " ++ toString (i + 1))) ∧
    (∀ s0 s1, run_daemon_start sample_clock s0 = .ok s1 →
      s1.worker_thread_ = some s0.threads.length ∧
        s1.threads[s0.threads.length]? = some Worker.start) :=
  C10_worker_loop_counts_from_one sample_clock sample_three_rounds (ctor []) 3 7
    (by decide) (by decide) (by decide) (by decide)

end worker

/-! ## The member function `log_message()` -/

section logging

open DummyApp

theorem toString_eq_mk (n : Nat) : toString n = String.mk (Nat.toDigits 10 n) := rfl

theorem toDigits_one (n : Nat) (h : n < 10) : Nat.toDigits 10 n = [Nat.digitChar n] := by
  unfold Nat.toDigits
  have h0 : n / 10 = 0 := by omega
  have h1 : n % 10 = n := by omega
  simp [Nat.toDigitsCore, h0, h1]

theorem toDigits_two (n : Nat) (h : 10 ≤ n) (h2 : n < 100) :
    Nat.toDigits 10 n = [Nat.digitChar (n / 10), Nat.digitChar (n % 10)] := by
  unfold Nat.toDigits
  obtain ⟨k, hk⟩ : ∃ k, n + 1 = k + 1 + 1 := ⟨n - 1, by omega⟩
  rw [hk]
  have h0 : n / 10 ≠ 0 := by omega
  have h1 : n / 10 / 10 = 0 := by omega
  have h3 : n / 10 % 10 = n / 10 := by omega
  simp [Nat.toDigitsCore, h0, h1, h3]

theorem toDigits_four (n : Nat) (h : 1000 ≤ n) (h2 : n < 10000) :
    Nat.toDigits 10 n =
      [Nat.digitChar (n / 1000), Nat.digitChar (n / 100 % 10), Nat.digitChar (n / 10 % 10),
        Nat.digitChar (n % 10)] := by
  unfold Nat.toDigits
  obtain ⟨k, hk⟩ : ∃ k, n + 1 = k + 1 + 1 + 1 + 1 := ⟨n - 3, by omega⟩
  rw [hk]
  have h1 : n / 10 ≠ 0 := by omega
  have h2 : n / 10 / 10 ≠ 0 := by omega
  have h3 : n / 10 / 10 / 10 ≠ 0 := by omega
  have h4 : n / 10 / 10 / 10 / 10 = 0 := by omega
  have e1 : n / 10 / 10 / 10 % 10 = n / 1000 := by omega
  have e2 : n / 10 / 10 % 10 = n / 100 % 10 := by omega
  simp only [Nat.toDigitsCore, h1, h2, h3, h4, if_true, if_false, e1, e2]

/-- Below one hundred `%m`, `%d`, `%H`, `%M`, `%S` give the two zero-padded digits. -/
theorem two_digits_eq (n : Nat) (h : n < 100) : two_digits n = String.mk (zero_padded 2 n) := by
  unfold two_digits
  by_cases h10 : n < 10
  · have h0 : n / 10 % 10 = 0 := by omega
    have h1 : n % 10 = n := by omega
    rw [if_pos h10, toString_eq_mk, toDigits_one n h10]
    simp [zero_padded, h0, h1]
    rfl
  · have h0 : n / 10 % 10 = n / 10 := by omega
    rw [if_neg h10, toString_eq_mk, toDigits_two n (by omega) h]
    simp [zero_padded, h0]

/-- From 1000 to 9999 `%Y` gives the four digits of the year. -/
theorem year_digits_eq (y : Int) (h : 1000 ≤ y) (h2 : y < 10000) :
    toString y = String.mk (zero_padded 4 y.toNat) := by
  obtain ⟨n, rfl⟩ : ∃ n : Nat, y = (n : Int) := ⟨y.toNat, by omega⟩
  have h : 1000 ≤ n := by omega
  have h2 : n < 10000 := by omega
  show toString n = String.mk (zero_padded 4 n)
  have e1 : n / 10 / 10 / 10 % 10 = n / 1000 := by omega
  have e2 : n / 10 / 10 % 10 = n / 100 % 10 := by omega
  rw [toString_eq_mk, toDigits_four n h h2]
  simp [zero_padded, e1, e2]

theorem zero_padded_length (width n : Nat) : (zero_padded width n).length = width := by
  induction width generalizing n with
  | zero => rfl
  | succ width ih => simp [zero_padded, ih]

/-- On a valid local time the model of `std::put_time` yields the spec's timestamp. -/
theorem put_time_eq_timestamp (t : Tm) (hv : t.valid) : put_time t = timestamp t := by
  obtain ⟨hy0, hy, hmon, _, hday, hh, hmin, hs⟩ := hv
  unfold put_time timestamp
  rw [year_digits_eq (t.tm_year + 1900) (by omega) (by omega),
    two_digits_eq (t.tm_mon + 1) (by omega), two_digits_eq t.tm_mday (by omega),
    two_digits_eq t.tm_hour (by omega), two_digits_eq t.tm_min (by omega),
    two_digits_eq t.tm_sec (by omega)]
  apply String.ext
  simp [String.data_append]

theorem timestamp_length (t : Tm) : (timestamp t).length = 19 := by
  simp [timestamp, String.length, zero_padded_length]

/-- C7, as amended: for every message `m` and every local time read from the clock whose
fields lie in the ranges of `struct tm` and whose year has four digits (1000 to 9999),
`log_message(m)` changes nothing but the output and the clock count, and appends exactly
one entry: `[`, the 19-character timestamp `YYYY-MM-DD HH:MM:SS` of that time (zero-padded
year, month, day, hour, minute, second), `]`, one space, `m` unchanged, a line end. -/
theorem C7_log_message_format (clock : Nat → Tm) (m : String) (s : State)
    (hv : (clock s.clock_reads).valid) :
    log_message clock m s =
      { s with
        cout := s.cout ++ ["[" ++ timestamp (clock s.clock_reads) ++ "] " ++ m ++ "\n"]
        clock_reads := s.clock_reads + 1 } ∧
    (timestamp (clock s.clock_reads)).length = 19 := by
  refine ⟨?_, timestamp_length _⟩
  simp [log_message, log_line, put_time_eq_timestamp _ hv]

/-- Witness of C7: one line logged by a fresh object at 07:08:00 on 5 January 2024. -/
theorem C7_log_message_format_witness :
    log_message sample_clock "DummyApp stopped" (ctor []) =
      { ctor [] with
        cout := (ctor []).cout ++
          ["[" ++ timestamp (sample_clock (ctor []).clock_reads) ++ "] " ++ "DummyApp stopped" ++ "\n"]
        clock_reads := (ctor []).clock_reads + 1 } ∧
    (timestamp (sample_clock (ctor []).clock_reads)).length = 19 :=
  C7_log_message_format sample_clock "DummyApp stopped" (ctor []) (by decide)

/-- C7 fails as stated outside the four-digit years: in the year 10000 the line carries a
timestamp of 20 characters, in the year 999 one of 18, since `%Y` writes the year as
it is. -/
theorem C7_counterexample :
    (log_message (fun _ => sample_year_10000) "DummyApp stopped" (ctor [])).cout =
        ["DummyApp initialized\n", "[10000-01-01 00:00:00] DummyApp stopped\n"] ∧
      (put_time sample_year_10000).length = 20 ∧
      (log_message (fun _ => sample_year_999) "DummyApp stopped" (ctor [])).cout =
        ["DummyApp initialized\n", "[999-01-01 00:00:00] DummyApp stopped\n"] ∧
      (put_time sample_year_999).length = 18 := by
  decide

/-- The witness line of C7, written out. -/
theorem log_message_example :
    (log_message sample_clock "DummyApp stopped" (ctor [])).cout =
      ["DummyApp initialized\n", "[2024-01-05 07:08:00] DummyApp stopped\n"] := by
  decide

end logging

/-! ## The entry point `main` -/

section entry

open DummyApp

theorem observed_quiet (b : Bool) (k : Nat) : observed quiet b k = b := by
  induction k with
  | zero => rfl
  | succ k ih => simp [observed, quiet, ih]

/-- Nobody clears the flag: the polling loop of `run_daemon` never ends. -/
theorem keep_alive_quiet (fuel : Nat) :
    ∀ (k : Nat) (s : State), s.running_ = true → keep_alive quiet fuel k s = .blocked s := by
  induction fuel with
  | zero => intro k s _; rfl
  | succ fuel ih =>
    intro k s h
    obtain ⟨r, wt, th, co, cr⟩ := s
    simp only at h
    subst h
    simp only [keep_alive, quiet, if_true]
    exact ih (k + 1) _ rfl

/-- C5: mode selection in `main`.  For every argument vector the daemon path is taken if
and only if a first argument exists and is exactly "--daemon": then `run_daemon` starts
the worker and blocks in its polling loop for every amount of fuel (nothing in the
process clears the flag), so the process does not return.  Any other argument vector
takes the foreground path, which makes its five iterations and returns, the destructor
finds nothing to stop, and the exit code is 0.  An exit code is therefore only ever 0. -/
theorem C5_main_mode_selection (clock : Nat → Tm) (fuel : Nat) (argv : List String) :
    main clock fuel argv =
      (if argv[1]? = some "--daemon" then
        Exit.never
          { running_ := true
            worker_thread_ := some 0
            threads := [Worker.start]
            cout := ["Simple Dummy Application v0.1.0\n",
              "A test application for build system standardization\n",
              "DummyApp initialized\n", "Running in daemon mode...\n"] ++
              stamped clock 0 ["DummyApp daemon started"]
            clock_reads := 1 }
      else
        Exit.code 0
          { running_ := false
            worker_thread_ := none
            threads := []
            cout := ["Simple Dummy Application v0.1.0\n",
              "A test application for build system standardization\n",
              "DummyApp initialized\n", "Running in foreground mode...\n"] ++
              stamped clock 0
                ["DummyApp running in foreground", "Foreground iteration 1",
                  "Foreground iteration 2", "Foreground iteration 3", "Foreground iteration 4",
                  "Foreground iteration 5", "DummyApp foreground mode completed"]
            clock_reads := 7 }) ∧
    (∀ c s, main clock fuel argv = Exit.code c s → c = 0) := by
  have hfg : ∀ s : State, run_foreground clock quiet s = _ :=
    fun s => run_foreground_full clock quiet s (fun k _ => observed_quiet true k)
  have both : ∀ {A B : Prop}, A → (A → B) → A ∧ B := fun a f => ⟨a, f a⟩
  refine both ?_ ?_
  · by_cases h : argv[1]? = some "--daemon"
    · obtain ⟨a, b, rest, rfl⟩ : ∃ a b rest, argv = a :: b :: rest := by
        match argv, h with
        | a :: b :: rest, _ => exact ⟨a, b, rest, rfl⟩
      have hb : b = "--daemon" := by simpa using h
      subst hb
      rw [if_pos h]
      simp [main, run_daemon, run_daemon_start, ctor, keep_alive_quiet, log_message, stamped]
    · rw [if_neg h]
      have hc : (decide (argv.length > 1) && (argv.getD 1 "" == "--daemon")) = false := by
        match argv, h with
        | [], _ => rfl
        | [_], _ => rfl
        | a :: b :: rest, h =>
          have hb : b ≠ "--daemon" := by simpa using h
          simp [hb]
      simp only [main, hc, hfg]
      simp [dtor, stop, ctor, stamped]
  · intro key c s hcs
    rw [key] at hcs
    split at hcs
    · cases hcs
    · injection hcs with h1 _
      exact h1.symm

/-- Outside `main`: were the flag cleared behind the back of a daemon run, `run_daemon`
would return with the worker still owned, and the destructor would end in
`std::terminate`.  Nothing in `main` can clear the flag. -/
theorem run_daemon_return_unjoined :
    ∃ s, run_daemon sample_clock (fun _ _ => false) 1 (ctor []) = .ok s ∧
      s.worker_thread_ = some 0 ∧ dtor sample_clock 2 s = .terminated s :=
  ⟨_, rfl, rfl, rfl⟩

/-- The invocations the interface names: no argument, `--daemon`, another first
argument, `--daemon` in a later position, and an empty argument vector. -/
theorem main_examples :
    (main sample_clock 3 ["simple-dummy"]).status = some 0 ∧
      (main sample_clock 3 ["simple-dummy", "--daemon"]).status = none ∧
      (main sample_clock 3 ["simple-dummy", "--daemon", "now"]).status = none ∧
      (main sample_clock 3 ["simple-dummy", "--foreground"]).status = some 0 ∧
      (main sample_clock 3 ["simple-dummy", "-v", "--daemon"]).status = some 0 ∧
      (main sample_clock 3 ["simple-dummy", "--daemon "]).status = some 0 ∧
      (main sample_clock 3 []).status = some 0 := by
  decide

end entry

/-! ## One object used from several threads -/

section traces

open DummyApp

theorem run_foreground_frame (clock : Nat → Tm) (env : Env) (s : State) :
    (run_foreground clock env s).running_ = false ∧
      (run_foreground clock env s).worker_thread_ = s.worker_thread_ ∧
      (run_foreground clock env s).threads = s.threads := by
  obtain ⟨n, hn, h1, h2⟩ := foreground_iterations_exist env
  rw [run_foreground_eq clock env s n hn h1 h2]
  exact ⟨rfl, rfl, rfl⟩

theorem worker_step_frame (clock : Nat → Tm) (s : State) (w : Worker) :
    (worker_step clock s w).1.running_ = s.running_ ∧
      (worker_step clock s w).1.worker_thread_ = s.worker_thread_ ∧
      (worker_step clock s w).1.threads = s.threads ∧
      (w.pc = .done → (worker_step clock s w).2.pc = .done) := by
  obtain ⟨pc, c⟩ := w
  cases pc
  · by_cases h : s.running_ <;> simp [worker_step, h]
  · simp [worker_step]
  · simp [worker_step]

theorem thread_step_frame (clock : Nat → Tm) (s : State) (tid : Nat) :
    (thread_step clock s tid).running_ = s.running_ ∧
      (thread_step clock s tid).worker_thread_ = s.worker_thread_ := by
  unfold thread_step
  cases hw : s.threads[tid]? with
  | none => exact ⟨rfl, rfl⟩
  | some w =>
    obtain ⟨e1, e2, _, _⟩ := worker_step_frame clock s w
    exact ⟨e1, e2⟩

/-- The handle is joinable exactly when the ghost flag says so, and then `running_` is set. -/
theorem handle_invariant_step (clock : Nat → Tm) (trace : List Event) :
    ∀ (s0 s : State) (b : Bool), s0.worker_thread_.isSome = b →
      (s0.worker_thread_.isSome = true → s0.running_ = true) →
      exec clock s0 trace = .ok s →
      only_unowned clock Event.is_run_foreground s0 trace = true →
      s.worker_thread_.isSome = daemon_set_unstopped b trace := by
  induction trace with
  | nil =>
    intro s0 s b hb _ hex _
    simp only [exec, Result.ok.injEq] at hex
    subst hex
    simpa [daemon_set_unstopped] using hb
  | cons e es ih =>
    intro s0 s b hb hrun hex hguard
    cases e with
    | run_daemon =>
      cases hw : s0.worker_thread_ with
      | some tid => simp [exec, apply_event, run_daemon_start, hw] at hex
      | none =>
        simp only [exec, apply_event, run_daemon_start, hw] at hex
        simp only [only_unowned, apply_event, run_daemon_start, hw] at hguard
        refine ih _ s true ?_ ?_ hex (by simpa using hguard)
        · rfl
        · intro _
          rfl
    | run_foreground =>
      obtain ⟨_, e2, _⟩ := run_foreground_frame clock quiet s0
      simp only [exec, apply_event] at hex
      simp only [only_unowned, apply_event, Event.is_run_foreground, Bool.not_true,
        Bool.false_or, Bool.and_eq_true] at hguard
      have hnone : s0.worker_thread_ = none := by simpa using hguard.1
      have h1 : (run_foreground clock quiet s0).worker_thread_.isSome = false := by
        rw [e2, hnone]
        rfl
      exact ih _ s false h1 (fun h => by rw [h1] at h; cases h) hex hguard.2
    | stop =>
      simp only [exec, apply_event] at hex
      simp only [only_unowned, apply_event, Event.is_run_foreground, Bool.not_false,
        Bool.true_or, Bool.true_and] at hguard
      cases hr : s0.running_ with
      | false =>
        rw [stop_not_running_eq clock 2 s0 hr] at hex hguard
        have h1 : s0.worker_thread_.isSome = false := by
          cases h : s0.worker_thread_.isSome with
          | false => rfl
          | true => rw [hrun h] at hr; cases hr
        exact ih s0 s false h1 (fun h => by rw [h1] at h; cases h) hex hguard
      | true =>
        rw [stop_running_eq clock 2 s0 hr (by omega)] at hex hguard
        refine ih _ s false ?_ ?_ hex hguard
        · rfl
        · intro h
          cases h
    | worker tid =>
      obtain ⟨e1, e2⟩ := thread_step_frame clock s0 tid
      simp only [exec, apply_event] at hex
      simp only [only_unowned, apply_event, Event.is_run_foreground, Bool.not_false,
        Bool.true_or, Bool.true_and] at hguard
      exact ih _ s b (by rw [e2]; exact hb) (fun h => by rw [e1]; rw [e2] at h; exact hrun h)
        hex hguard

/-- C6, as amended: in every state reachable from construction by any interleaving of
run_daemon, run_foreground, stop (each call one step: run_daemon up to its polling loop,
run_foreground and stop completely) and worker-loop steps in which run_foreground is
never called while the worker handle is joinable, the handle is joinable if and only if
`running` was most recently set true by run_daemon and no stop() has completed since. -/
theorem C6_worker_handle_invariant (clock : Nat → Tm) (cout : List String)
    (trace : List Event) (s : State)
    (hreach : exec clock (ctor cout) trace = .ok s)
    (hguard : only_unowned clock Event.is_run_foreground (ctor cout) trace = true) :
    s.worker_thread_.isSome = daemon_set_unstopped false trace :=
  handle_invariant_step clock trace (ctor cout) s false rfl (fun h => by cases h) hreach hguard

/-- Witness of C6 as amended: the sample trace ends in a second daemon run. -/
theorem C6_worker_handle_invariant_witness :
    (exec sample_clock (ctor []) sample_trace).state.worker_thread_.isSome =
      daemon_set_unstopped false sample_trace :=
  C6_worker_handle_invariant sample_clock [] sample_trace
    (exec sample_clock (ctor []) sample_trace).state (by decide) (by decide)

/-- C6 fails as stated: after `run_daemon` and then a complete `run_foreground` (called
from a second thread while the first polls) the handle is still joinable, although
`running` was most recently set true by `run_foreground`. -/
theorem C6_counterexample :
    ∃ s, exec sample_clock (ctor []) [.run_daemon, .run_foreground] = .ok s ∧
      s.worker_thread_.isSome = true ∧
      daemon_set_unstopped false [.run_daemon, .run_foreground] = false :=
  ⟨_, rfl, rfl, rfl⟩

/-- A list in which at most one position holds a live worker has at most one live worker. -/
theorem countP_live_le_one (l : List Worker)
    (h : ∀ (i j : Nat) (wi wj : Worker), l[i]? = some wi → l[j]? = some wj →
      wi.pc ≠ .done → wj.pc ≠ .done → i = j) :
    l.countP (fun w => decide (w.pc ≠ .done)) ≤ 1 := by
  induction l with
  | nil => simp
  | cons w l ih =>
    have hl : l.countP (fun w => decide (w.pc ≠ .done)) ≤ 1 :=
      ih (fun i j wi wj hi hj pi pj => by
        have := h (i + 1) (j + 1) wi wj (by simpa using hi) (by simpa using hj) pi pj
        omega)
    by_cases hw : w.pc = .done
    · simpa [List.countP_cons, hw] using hl
    · have hz : l.countP (fun w => decide (w.pc ≠ .done)) = 0 := by
        rw [List.countP_eq_zero]
        intro x hx
        obtain ⟨j, hj⟩ := List.getElem?_of_mem hx
        by_cases hxd : x.pc = .done
        · simp [hxd]
        · have := h 0 (j + 1) w x (by simp) (by simpa using hj) hw hxd
          omega
      rw [List.countP_cons, hz]
      simp [hw]

/-- A state in which every thread still inside `worker_loop` is the one the handle owns
has at most one live worker. -/
theorem live_workers_le_one (s : State)
    (h : ∀ (tid : Nat) (w : Worker), s.threads[tid]? = some w → w.pc ≠ .done →
      s.worker_thread_ = some tid) :
    live_workers s ≤ 1 := by
  apply countP_live_le_one
  intro i j wi wj hi hj pi pj
  have h1 := h i wi hi pi
  have h2 := h j wj hj pj
  rw [h1] at h2
  exact Option.some.inj h2

/-- After `stop()` on a running object every thread has returned, provided only the owned
thread could be live before. -/
theorem joined_threads_done (s : State)
    (h : ∀ (tid : Nat) (w : Worker), s.threads[tid]? = some w → w.pc ≠ .done →
      s.worker_thread_ = some tid) :
    ∀ (tid : Nat) (w : Worker), (joined_threads s)[tid]? = some w → w.pc = .done := by
  intro tid w hw
  by_contra hlive
  unfold joined_threads at hw
  cases hh : s.worker_thread_ with
  | none =>
    simp only [hh] at hw
    have := h tid w hw hlive
    rw [hh] at this
    cases this
  | some t0 =>
    simp only [hh] at hw
    cases h0 : s.threads[t0]? with
    | none =>
      simp only [h0] at hw
      have := h tid w hw hlive
      rw [hh] at this
      have e : t0 = tid := Option.some.inj this
      subst e
      rw [h0] at hw
      cases hw
    | some w0 =>
      simp only [h0] at hw
      rw [List.getElem?_set] at hw
      by_cases e : t0 = tid
      · subst e
        have hlt : t0 < s.threads.length := (List.getElem?_eq_some.1 h0).1
        simp [hlt] at hw
        subst hw
        exact hlive rfl
      · simp only [e, if_false] at hw
        have := h tid w hw hlive
        rw [hh] at this
        exact e (Option.some.inj this)

/-- With a non-joinable handle `run_daemon` gets as far as its polling loop. -/
theorem run_daemon_start_unowned (clock : Nat → Tm) (s : State) (h : s.worker_thread_ = none) :
    run_daemon_start clock s = .ok
      (log_message clock "DummyApp daemon started"
        { s with
          running_ := true
          threads := s.threads ++ [Worker.start]
          worker_thread_ := some s.threads.length }) := by
  simp [run_daemon_start, h]

/-- Along a trace that never calls run_daemon while the handle is joinable the process
stays alive and only the owned thread can be inside `worker_loop`. -/
theorem owned_invariant_step (clock : Nat → Tm) (trace : List Event) :
    ∀ (s0 : State),
      (∀ (tid : Nat) (w : Worker), s0.threads[tid]? = some w → w.pc ≠ .done →
        s0.worker_thread_ = some tid) →
      only_unowned clock Event.is_run_daemon s0 trace = true →
      ∃ s, exec clock s0 trace = .ok s ∧
        ∀ (tid : Nat) (w : Worker), s.threads[tid]? = some w → w.pc ≠ .done →
          s.worker_thread_ = some tid := by
  induction trace with
  | nil =>
    intro s0 h _
    exact ⟨s0, rfl, h⟩
  | cons e es ih =>
    intro s0 h hguard
    cases e with
    | run_daemon =>
      simp only [only_unowned, apply_event, Event.is_run_daemon, Bool.not_true,
        Bool.false_or, Bool.and_eq_true] at hguard
      have hnone : s0.worker_thread_ = none := by simpa using hguard.1
      have hstart : run_daemon_start clock s0 = .ok
          (log_message clock "DummyApp daemon started"
            { s0 with
              running_ := true
              threads := s0.threads ++ [Worker.start]
              worker_thread_ := some s0.threads.length }) := by
        simp [run_daemon_start, hnone]
      simp only [exec, apply_event, hstart]
      rw [hstart] at hguard
      refine ih _ ?_ hguard.2
      intro tid w hw hlive
      simp only [log_message_threads, log_message_worker_thread] at hw ⊢
      by_cases hlt : tid < s0.threads.length
      · rw [List.getElem?_append_left hlt] at hw
        have := h tid w hw hlive
        rw [hnone] at this
        cases this
      · have hge : s0.threads.length ≤ tid := by omega
        rw [List.getElem?_append_right hge] at hw
        have h0 : tid - s0.threads.length = 0 := by
          by_contra hne
          obtain ⟨m, hm⟩ : ∃ m, tid - s0.threads.length = m + 1 :=
            ⟨tid - s0.threads.length - 1, by omega⟩
          rw [hm] at hw
          simp at hw
        congr 1
        omega
    | run_foreground =>
      obtain ⟨_, e2, e3⟩ := run_foreground_frame clock quiet s0
      simp only [only_unowned, apply_event, Event.is_run_daemon, Bool.not_false,
        Bool.true_or, Bool.true_and] at hguard
      simp only [exec, apply_event]
      refine ih _ ?_ hguard
      intro tid w hw hlive
      rw [e3] at hw
      rw [e2]
      exact h tid w hw hlive
    | stop =>
      simp only [only_unowned, apply_event, Event.is_run_daemon, Bool.not_false,
        Bool.true_or, Bool.true_and] at hguard
      simp only [exec, apply_event]
      cases hr : s0.running_ with
      | false =>
        rw [stop_not_running_eq clock 2 s0 hr] at hguard ⊢
        exact ih s0 h hguard
      | true =>
        rw [stop_running_eq clock 2 s0 hr (by omega)] at hguard ⊢
        refine ih _ ?_ hguard
        intro tid w hw hlive
        exact absurd (joined_threads_done s0 h tid w hw) hlive
    | worker tid0 =>
      simp only [only_unowned, apply_event, Event.is_run_daemon, Bool.not_false,
        Bool.true_or, Bool.true_and] at hguard
      simp only [exec, apply_event]
      refine ih _ ?_ hguard
      intro tid w hw hlive
      unfold thread_step at hw ⊢
      cases h0 : s0.threads[tid0]? with
      | none =>
        simp only [h0] at hw ⊢
        exact h tid w hw hlive
      | some w0 =>
        obtain ⟨_, e2, e3, e4⟩ := worker_step_frame clock s0 w0
        simp only [h0] at hw ⊢
        rw [e2]
        rw [e3, List.getElem?_set] at hw
        by_cases e : tid0 = tid
        · subst e
          by_contra hne
          have hdone : w0.pc = .done := by
            by_contra hl0
            exact hne (h tid0 w0 h0 hl0)
          have hlt : tid0 < s0.threads.length := (List.getElem?_eq_some.1 h0).1
          simp [hlt] at hw
          subst hw
          exact hlive (e4 hdone)
        · simp only [e, if_false] at hw
          exact h tid w hw hlive

theorem only_unowned_take (clock : Nat → Tm) (p : Event → Bool) (trace : List Event) :
    ∀ (n : Nat) (s0 : State), only_unowned clock p s0 trace = true →
      only_unowned clock p s0 (trace.take n) = true := by
  induction trace with
  | nil => intro n s0 _; simp [only_unowned]
  | cons e es ih =>
    intro n s0 h
    cases n with
    | zero => simp [only_unowned]
    | succ n =>
      simp only [only_unowned, Bool.and_eq_true] at h
      simp only [List.take_succ_cons, only_unowned, Bool.and_eq_true]
      refine ⟨h.1, ?_⟩
      cases hr : apply_event clock s0 e with
      | ok s1 =>
        have h2 := h.2
        rw [hr] at h2
        exact ih n s1 h2
      | terminated s1 => rfl
      | blocked s1 => rfl

/-- C8, as amended: along every sequence of run_daemon, run_foreground and stop calls
on one object (each call one step, interleaved with worker-loop steps) in which
run_daemon is never called while the worker handle is joinable, the process is never
terminated and at every point at most one worker thread is inside `worker_loop`; and
after a `stop()` of a running object `run_daemon` starts a new worker without error. -/
theorem C8_single_live_worker (clock : Nat → Tm) (cout : List String) (trace : List Event)
    (hguard : only_unowned clock Event.is_run_daemon (ctor cout) trace = true) :
    (∀ n, ∃ s, exec clock (ctor cout) (trace.take n) = .ok s ∧ live_workers s ≤ 1) ∧
    (∀ (s : State) (fuel : Nat), s.running_ = true → 2 ≤ fuel →
      ∃ s1 s2, stop clock fuel s = .ok s1 ∧ run_daemon_start clock s1 = .ok s2 ∧
        s2.running_ = true ∧ s2.worker_thread_ = some s1.threads.length) := by
  constructor
  · intro n
    obtain ⟨s, hs, hinv⟩ := owned_invariant_step clock (trace.take n) (ctor cout)
      (fun tid w hw _ => by simp [ctor] at hw)
      (only_unowned_take clock Event.is_run_daemon trace n (ctor cout) hguard)
    exact ⟨s, hs, live_workers_le_one s hinv⟩
  · intro s fuel hr hf
    exact ⟨_, _, stop_running_eq clock fuel s hr hf, run_daemon_start_unowned clock _ rfl,
      rfl, rfl⟩

/-- Witness of C8 as amended: the sample trace runs the daemon, stops it and runs it again. -/
theorem C8_single_live_worker_witness :
    (∀ n, ∃ s, exec sample_clock (ctor []) (sample_trace.take n) = .ok s ∧ live_workers s ≤ 1) ∧
    (∀ (s : State) (fuel : Nat), s.running_ = true → 2 ≤ fuel →
      ∃ s1 s2, stop sample_clock fuel s = .ok s1 ∧ run_daemon_start sample_clock s1 = .ok s2 ∧
        s2.running_ = true ∧ s2.worker_thread_ = some s1.threads.length) :=
  C8_single_live_worker sample_clock [] sample_trace (by decide)

/-- C8 fails as stated: a second `run_daemon` while the first worker is live starts a
second worker thread, so two are live, and the move-assignment to the joinable handle
ends the process through `std::terminate`. -/
theorem C8_counterexample :
    ∃ s, exec sample_clock (ctor []) [.run_daemon, .run_daemon] = .terminated s ∧
      live_workers s = 2 :=
  ⟨_, rfl, rfl⟩

/-- The same object used the way the lifecycle intends it: the final state of the sample
trace has the first worker returned and the second one live and owned. -/
theorem sample_trace_final :
    (exec sample_clock (ctor []) sample_trace).state.threads =
        [{ pc := .done, counter := 2 }, { pc := .body, counter := 0 }] ∧
      (exec sample_clock (ctor []) sample_trace).state.worker_thread_ = some 1 := by
  decide

/-- A foreground run on top of a daemon run leaks the worker: `stop()` then finds the
flag cleared and does nothing, and the destructor ends in `std::terminate`. -/
theorem foreground_over_daemon_leaks :
    ∃ s, exec sample_clock (ctor []) [.run_daemon, .run_foreground, .stop] = .ok s ∧
      s.worker_thread_ = some 0 ∧ dtor sample_clock 2 s = .terminated s :=
  ⟨_, rfl, rfl, rfl⟩

end traces

end simple_dummy
